/-
Verification of `dnscheck.py` (pfptcommunity/dnscheck), a bulk DNS lookup tool
that reads a host list, performs per-kind DNS lookups (DMARC, SPF, MX, A, PTR)
and accumulates per-kind tables of rows that are later rendered to a
spreadsheet.

This file shallowly embeds the program. External effects (the DNS resolver of
the `dns` library, and the reverse-name synthesis `dns.reversename.from_address`)
are passed in as explicit function parameters. Python exceptions are modelled
with `Except String`: the `try/except` in `dns_lookup` becomes a `match` on the
resolver outcome, and an exception that propagates out of `process_domain`
(aborting the run) becomes an `Except.error` result. Python `str.strip()` is
modelled by `String.trim` (both trim surrounding whitespace), `str.lower` by
`String.toLower` (they agree on ASCII, the only case exercised here), and the
UTF-8 decoding of TXT chunks is modelled by taking the chunks as already
decoded strings.
-/
import Mathlib

namespace DnsCheck

/-- The five lookup kinds. In the source they are the dictionary keys
`DATA_TYPE_DMARC = 'DMARC Data'`, ..., `DATA_TYPE_A = 'A Data'`. -/
inductive Kind where
  | dmarc
  | spf
  | mx
  | a
  | ptr
deriving DecidableEq, Repr

/-- One record-kind table: the Python dict value
`{'max_cols': ..., 'data': ...}` where `data` is a list of rows and each row
is `[host] + record_strings`. -/
structure Table where
  max_cols : Nat
  data : List (List String)
deriving DecidableEq, Repr

/-- The second argument of `dict.setdefault` in `process_domain`:
`{'max_cols': 0, 'data': []}`. -/
def emptyTable : Table := ⟨0, []⟩

/-- The `dns_data` dictionary. Each kind's table is created lazily
(`setdefault`), hence `Option`. -/
structure DnsData where
  dmarc : Option Table
  spf : Option Table
  mx : Option Table
  a : Option Table
  ptr : Option Table
deriving DecidableEq, Repr

/-- The empty dictionary `dns_data = {}` created in `main`. -/
def initData : DnsData := ⟨none, none, none, none, none⟩

/-- Dictionary access `dns_data[DATA_TYPE_*]`. -/
def getKind (d : DnsData) : Kind → Option Table
  | .dmarc => d.dmarc
  | .spf => d.spf
  | .mx => d.mx
  | .a => d.a
  | .ptr => d.ptr

/-- Dictionary assignment to the key of kind `k`. -/
def setKind (d : DnsData) (k : Kind) (t : Option Table) : DnsData :=
  match k with
  | .dmarc => ⟨t, d.spf, d.mx, d.a, d.ptr⟩
  | .spf => ⟨d.dmarc, t, d.mx, d.a, d.ptr⟩
  | .mx => ⟨d.dmarc, d.spf, t, d.a, d.ptr⟩
  | .a => ⟨d.dmarc, d.spf, d.mx, t, d.ptr⟩
  | .ptr => ⟨d.dmarc, d.spf, d.mx, d.a, t⟩

/-- The five boolean lookup flags of `argparse.Namespace` used by
`process_domain`. -/
structure Args where
  dmarc_flag : Bool
  spf_flag : Bool
  mx_flag : Bool
  a_flag : Bool
  reverse_flag : Bool
deriving DecidableEq, Repr

/-- Which flag enables which kind. -/
def Args.enabled (args : Args) : Kind → Bool
  | .dmarc => args.dmarc_flag
  | .spf => args.spf_flag
  | .mx => args.mx_flag
  | .a => args.a_flag
  | .ptr => args.reverse_flag

/-- One DNS resource record as seen by `get_record_text`: the constructor is
the record's `rdtype` and the payload is the textual data the code extracts
(`to_text()` for names/addresses, the decoded character-string chunks for TXT,
`exchange.to_text()` for MX). -/
inductive Rdata where
  | a (text : String)
  | cname (text : String)
  | ptr (text : String)
  | txt (strings : List String)
  | mx (exchange : String)
  | other (text : String)
deriving DecidableEq, Repr

/-- Python `s.lower()` (character-wise lowering; Python and this model agree
on the ASCII strings this program handles). -/
def toLowerStr (s : String) : String :=
  ⟨s.data.map Char.toLower⟩

/-- Python `s.startswith(pre)`. -/
def startsWithStr (s pre : String) : Bool :=
  pre.data.isPrefixOf s.data

/-- Python `s.endswith(post)`. -/
def endsWithStr (s post : String) : Bool :=
  post.data.reverse.isPrefixOf s.data.reverse

/-- Python `s.strip()`: remove leading and trailing whitespace. -/
def trimStr (s : String) : String :=
  ⟨((s.data.dropWhile Char.isWhitespace).reverse.dropWhile Char.isWhitespace).reverse⟩

/-- Python `sep.join(parts)`. -/
def interString (sep : String) : List String → String
  | [] => ""
  | [s] => s
  | s :: rest => s ++ sep ++ interString sep rest

/-- Helper for `splitOnDot`: accumulate the current part (reversed). -/
def splitDotAux : List Char → List Char → List String
  | [], acc => [⟨acc.reverse⟩]
  | c :: cs, acc =>
      if c = '.' then (⟨acc.reverse⟩ : String) :: splitDotAux cs []
      else splitDotAux cs (c :: acc)

/-- Python `s.split('.')`. -/
def splitOnDot (s : String) : List String :=
  splitDotAux s.data []

/-- Numeric value of a digit string (Python `int(s)` on digit-only input). -/
def strToNat (s : String) : Nat :=
  s.data.foldl (fun n c => n * 10 + (c.toNat - 48)) 0

/-- Python `s.strip('.')`: remove ALL leading and trailing `.` characters. -/
def stripDotsBoth (s : String) : String :=
  ⟨((s.data.dropWhile (fun c => c = '.')).reverse.dropWhile (fun c => c = '.')).reverse⟩

/-- `get_record_text`: the type-specific record-to-text decoding. -/
def get_record_text : Rdata → String
  | .a text => stripDotsBoth text
  | .cname text => stripDotsBoth text
  | .ptr text => stripDotsBoth text
  | .txt strings => String.join strings
  | .mx exchange => stripDotsBoth exchange
  | .other text => stripDotsBoth text

/-- `spf_pattern = re.compile(r'^v=spf', re.IGNORECASE)` applied with
`.match`: a case-insensitive check that the string starts with `v=spf`. -/
def spfMatch (s : String) : Bool :=
  startsWithStr (toLowerStr s) "v=spf"

/-- `pattern is None or pattern.match(record_text)`. -/
def patternMatches (pattern : Option (String → Bool)) (s : String) : Bool :=
  match pattern with
  | none => true
  | some p => p s

/-- The outcome of `custom_resolver.resolve(qname, rdtype)`: either the answer
records or the stringified exception `str(e)`. This is the external-resolver
parameter threaded through the embedding. -/
abbrev Resolve := String → String → Except String (List Rdata)

/-- `dns_lookup(qname, rdtype, pattern)`: on success collect the decoded
records that match the filter, in answer order; on any exception return the
one-element list `[str(e)]`. -/
def dns_lookup (resolve : Resolve) (qname : String) (rdtype : String)
    (pattern : Option (String → Bool)) : List String :=
  match resolve qname rdtype with
  | .error e => [e]
  | .ok answers =>
      answers.foldl
        (fun records rdata =>
          let record_text := get_record_text rdata
          if patternMatches pattern record_text then records ++ [record_text]
          else records)
        []

/-- The per-kind mutation performed by each block of `process_domain`:
`setdefault` the table, update `max_cols` to `max(len(data), max_cols)` and
append the row `[host] + data`. -/
def updateTable (t : Table) (host : String) (data : List String) : Table :=
  ⟨max data.length t.max_cols, t.data ++ [host :: data]⟩

/-- `updateTable` applied at a kind's slot of the `dns_data` dictionary. -/
def updateKindTable (d : DnsData) (k : Kind) (host : String) (data : List String) :
    DnsData :=
  setKind d k (some (updateTable ((getKind d k).getD emptyTable) host data))

/-- The reverse-name synthesis `dns.reversename.from_address(host)`: raises
when `host` is not a valid IP address, hence `Except`. Passed as a parameter
(it lives in the external `dns` library). -/
abbrev ReverseName := String → Except String String

/-- The first four blocks of `process_domain` (DMARC, SPF, MX, A), in source
order. None of them can raise: `dns_lookup` swallows every exception. -/
def forward_updates (host : String) (args : Args) (resolve : Resolve)
    (d : DnsData) : DnsData :=
  let d :=
    if args.dmarc_flag then
      updateKindTable d .dmarc host (dns_lookup resolve ("_dmarc." ++ host) "TXT" none)
    else d
  let d :=
    if args.spf_flag then
      updateKindTable d .spf host (dns_lookup resolve host "TXT" (some spfMatch))
    else d
  let d :=
    if args.mx_flag then
      updateKindTable d .mx host (dns_lookup resolve host "MX" none)
    else d
  if args.a_flag then
    updateKindTable d .a host (dns_lookup resolve host "A" none)
  else d

/-- The row tail each of the four forward blocks computes (the `data` local
of the corresponding block of `process_domain`). -/
def forward_lookup (host : String) (resolve : Resolve) : Kind → List String
  | .dmarc => dns_lookup resolve ("_dmarc." ++ host) "TXT" none
  | .spf => dns_lookup resolve host "TXT" (some spfMatch)
  | .mx => dns_lookup resolve host "MX" none
  | .a => dns_lookup resolve host "A" none
  | .ptr => []

/-- `process_domain(host, args, dns_data)`: one block per enabled kind, in
source order DMARC, SPF, MX, A, PTR. The PTR block calls the reverse-name
synthesis outside any `try`, so its exception propagates out of
`process_domain` (modelled as `Except.error`, which aborts the run; the dict
mutations made before the exception are unobservable because the workbook is
never written). -/
def process_domain (host : String) (args : Args) (resolve : Resolve)
    (reverseName : ReverseName) (d : DnsData) : Except String DnsData :=
  if args.reverse_flag then
    match reverseName host with
    | .error e => .error e
    | .ok reversed_ip =>
        .ok (updateKindTable (forward_updates host args resolve d) .ptr host
          (dns_lookup resolve reversed_ip "PTR" none))
  else .ok (forward_updates host args resolve d)

/-- Processing a list of (already trimmed, non-empty) hosts in order,
stopping at the first propagated exception. -/
def processAll (hosts : List String) (args : Args) (resolve : Resolve)
    (reverseName : ReverseName) (d : DnsData) : Except String DnsData :=
  match hosts with
  | [] => .ok d
  | host :: rest =>
      match process_domain host args resolve reverseName d with
      | .error e => .error e
      | .ok d' => processAll rest args resolve reverseName d'

/-- The reading loop of `main`: for each record of the input file (a line in
txt mode, the value of the host field in csv mode) strip it, skip it when the
result is empty, otherwise process it. -/
def mainLoop (entries : List String) (args : Args) (resolve : Resolve)
    (reverseName : ReverseName) (d : DnsData) : Except String DnsData :=
  match entries with
  | [] => .ok d
  | line :: rest =>
      if trimStr line = "" then mainLoop rest args resolve reverseName d
      else
        match process_domain (trimStr line) args resolve reverseName d with
        | .error e => .error e
        | .ok d' => mainLoop rest args resolve reverseName d'

/-- `validate_xlsx_file`: accept the path iff its lowercased form ends in
`.xlsx`, otherwise raise `argparse.ArgumentTypeError`. -/
def validate_xlsx_file (file_path : String) : Except String String :=
  if endsWithStr (toLowerStr file_path) ".xlsx" then .ok file_path
  else .error "File must have a .xlsx extension."

/-- Python truthiness of `args.host_field : Optional[str]`: `None` and the
empty string are falsy. -/
def truthy : Option String → Bool
  | none => false
  | some s => s ≠ ""

/-- The two host-field checks of `main` (source lines 187-191): default the
field to `"Domain"` for csv input when it is falsy, then reject a truthy
field for non-csv input via `parser.error` (modelled as `Except.error`). -/
def check_host_field (input_type : String) (host_field : Option String) :
    Except String (Option String) :=
  let host_field :=
    if input_type = "csv" && !truthy host_field then some "Domain" else host_field
  if input_type ≠ "csv" && truthy host_field = true then
    .error ("--host-ip can not be used with type '" ++ input_type ++ "'")
  else .ok host_field

/-- The run after argument parsing: the host-field configuration checks come
first; only afterwards is the input file opened and iterated (its records are
the `entries` parameter) and only inside that loop are DNS queries issued. -/
def runMain (input_type : String) (host_field : Option String)
    (entries : List String) (args : Args) (resolve : Resolve)
    (reverseName : ReverseName) : Except String DnsData :=
  match check_host_field input_type host_field with
  | .error e => .error e
  | .ok _ => mainLoop entries args resolve reverseName initData

/-- The data cells `write_to_excel` emits for one row: `col_data` is written
at consecutive columns starting at 0, so the cell list is the row itself
(host at column 0, then the field values). -/
def expandedRowCells (row : List String) : List String := row

/-- The data cells `write_to_excel_compact` emits for one row:
`row_data[0]` at column 0 and `'\n'.join(row_data[1:])` at column 1.
`row_data[0]` raises `IndexError` on an empty row, hence `Option`. -/
def compactRowCells (row : List String) : Option (String × String) :=
  match row with
  | [] => none
  | host :: _ => some (host, interString "\n" (row.drop 1))

/-- A dotted-quad IPv4 octet: non-empty, all digits, value at most 255. -/
def validOctet (s : String) : Bool :=
  s ≠ "" && s.data.all Char.isDigit && strToNat s ≤ 255

/-- Modelled from the spec: `dns.reversename.from_address` is part of the
external `dns` library, not of this repository. Per the spec, the PTR query
name is "synthesized from `host` interpreted as an IP address" and the
synthesis "fails ... if `host` is not a valid IP". We model the IPv4
dotted-quad form (the IPv6 form is irrelevant to the inputs considered here):
a valid address maps to its `in-addr.arpa` name, anything else raises. -/
def from_address (host : String) : Except String String :=
  let parts := splitOnDot host
  if parts.length = 4 && parts.all validOctet then
    .ok (interString "." parts.reverse ++ ".in-addr.arpa.")
  else
    .error ("dns.exception.SyntaxError: could not convert " ++ host ++ " to an address")

/-- Modelled from the spec (for the refinement of `get_record_text`): "textual
address/name with any trailing root-label dot stripped" — remove one trailing
`.` when present, change nothing else. -/
def stripTrailingRootDot (s : String) : String :=
  if s.data.reverse.head? = some '.' then ⟨s.data.reverse.tail.reverse⟩ else s

/-- Modelled from the spec: the type-specific decoding rule of §4.2, stated
with `stripTrailingRootDot` in place of Python's two-sided `strip('.')`. -/
def spec_record_text : Rdata → String
  | .a text => stripTrailingRootDot text
  | .cname text => stripTrailingRootDot text
  | .ptr text => stripTrailingRootDot text
  | .txt strings => String.join strings
  | .mx exchange => stripTrailingRootDot exchange
  | .other text => stripTrailingRootDot text

/-- Well-formedness of a rendered DNS name as produced by the library's
`to_text()`: labels are non-empty, so the text never begins with `.` and
never ends with two dots. -/
def wfNameText (s : String) : Bool :=
  (s.data.head? ≠ some '.' : Bool) &&
    !((s.data.reverse.head? = some '.' : Bool) &&
      (s.data.reverse.tail.head? = some '.' : Bool))

/-- Well-formedness of a record: its name-valued text fields are rendered
names. TXT payloads are free-form. -/
def rdataWF : Rdata → Bool
  | .a text => wfNameText text
  | .cname text => wfNameText text
  | .ptr text => wfNameText text
  | .txt _ => true
  | .mx exchange => wfNameText exchange
  | .other text => wfNameText text

/-- The invariant of one record-kind table: rows are non-empty
(`[host] + data`), every row's tail length is bounded by `max_cols`, and
`max_cols` is exactly the maximum tail length over the rows. -/
def tableInv (t : Table) : Prop :=
  (∀ row ∈ t.data, row ≠ []) ∧
  (∀ row ∈ t.data, row.length - 1 ≤ t.max_cols) ∧
  t.max_cols = (t.data.map (fun row => row.length - 1)).foldl max 0

/-- The invariant of the whole `dns_data` dictionary: every existing table
satisfies `tableInv`. -/
def dataInv (d : DnsData) : Prop :=
  ∀ k t, getKind d k = some t → tableInv t

/-- Concrete flag vectors used to instantiate theorems. -/
def argsSpfOnly : Args := ⟨false, true, false, false, false⟩

def argsMxOnly : Args := ⟨false, false, true, false, false⟩

def argsReverseOnly : Args := ⟨false, false, false, false, true⟩

/-- A resolver that always answers with no records. -/
def resolveEmpty : Resolve := fun _ _ => .ok []

/-- A resolver whose every query raises a timeout. -/
def resolveTimeout : Resolve := fun _ _ => .error "The DNS operation timed out."

/-- A resolver fixture: TXT answers for `example.com` are one SPF record and
one unrelated record. -/
def resolveSpfExample : Resolve := fun qname rdtype =>
  if qname = "example.com" && rdtype = "TXT" then
    .ok [Rdata.txt ["v=spf1 include:_spf.example.com ~all"], Rdata.txt ["unrelated=1"]]
  else .ok []

/-- A resolver fixture: every TXT answer fails the SPF filter. -/
def resolveUnrelated : Resolve := fun _ rdtype =>
  if rdtype = "TXT" then .ok [Rdata.txt ["unrelated=1"]] else .ok []

/-- A resolver fixture: one MX record for every MX query. -/
def resolveMxExample : Resolve := fun _ rdtype =>
  if rdtype = "MX" then .ok [Rdata.mx "mail.example.com."] else .ok []

/-! ## Helper lemmas -/

theorem getKind_setKind_same (d : DnsData) (k : Kind) (t : Option Table) :
    getKind (setKind d k t) k = t := by
  cases k <;> rfl

theorem getKind_setKind_ne (d : DnsData) (k k' : Kind) (t : Option Table)
    (h : k' ≠ k) : getKind (setKind d k t) k' = getKind d k' := by
  cases k <;> cases k' <;> simp_all [getKind, setKind]

theorem getKind_updateKindTable_same (d : DnsData) (k : Kind) (host : String)
    (data : List String) :
    getKind (updateKindTable d k host data) k =
      some (updateTable ((getKind d k).getD emptyTable) host data) := by
  unfold updateKindTable
  exact getKind_setKind_same d k _

theorem getKind_updateKindTable_ne (d : DnsData) (k k' : Kind) (host : String)
    (data : List String) (h : k' ≠ k) :
    getKind (updateKindTable d k host data) k' = getKind d k' := by
  unfold updateKindTable
  exact getKind_setKind_ne d k k' _ h

theorem getKind_ite_update_ne (flag : Prop) [Decidable flag] (d : DnsData)
    (k k' : Kind) (host : String) (data : List String) (h : k' ≠ k) :
    getKind (if flag then updateKindTable d k host data else d) k' =
      getKind d k' := by
  by_cases hf : flag
  · simp only [if_pos hf]
    exact getKind_updateKindTable_ne d k k' host data h
  · simp only [if_neg hf]

/-- The forward blocks never touch the PTR table. -/
theorem getKind_forward_ptr (host : String) (args : Args) (resolve : Resolve)
    (d : DnsData) :
    getKind (forward_updates host args resolve d) Kind.ptr = getKind d Kind.ptr := by
  unfold forward_updates
  rw [getKind_ite_update_ne _ _ _ _ _ _ (by simp), getKind_ite_update_ne _ _ _ _ _ _ (by simp),
    getKind_ite_update_ne _ _ _ _ _ _ (by simp), getKind_ite_update_ne _ _ _ _ _ _ (by simp)]

/-- What the forward blocks do to each non-PTR table. -/
theorem getKind_forward (host : String) (args : Args) (resolve : Resolve)
    (d : DnsData) (k : Kind) (hk : k ≠ Kind.ptr) :
    getKind (forward_updates host args resolve d) k =
      if args.enabled k then
        some (updateTable ((getKind d k).getD emptyTable) host
          (forward_lookup host resolve k))
      else getKind d k := by
  cases k with
  | ptr => exact absurd rfl hk
  | dmarc =>
      unfold forward_updates
      rw [getKind_ite_update_ne _ _ _ _ _ _ (by simp),
        getKind_ite_update_ne _ _ _ _ _ _ (by simp),
        getKind_ite_update_ne _ _ _ _ _ _ (by simp)]
      by_cases h : args.dmarc_flag <;>
        simp [h, Args.enabled, getKind_updateKindTable_same, forward_lookup]
  | spf =>
      unfold forward_updates
      rw [getKind_ite_update_ne _ _ _ _ _ _ (by simp),
        getKind_ite_update_ne _ _ _ _ _ _ (by simp)]
      by_cases h : args.spf_flag
      · simp [h, Args.enabled, getKind_updateKindTable_same, forward_lookup,
          getKind_ite_update_ne _ _ _ _ _ _ (by simp : Kind.spf ≠ Kind.dmarc)]
      · simp [h, Args.enabled,
          getKind_ite_update_ne _ _ _ _ _ _ (by simp : Kind.spf ≠ Kind.dmarc)]
  | mx =>
      unfold forward_updates
      rw [getKind_ite_update_ne _ _ _ _ _ _ (by simp)]
      by_cases h : args.mx_flag
      · simp [h, Args.enabled, getKind_updateKindTable_same, forward_lookup,
          getKind_ite_update_ne _ _ _ _ _ _ (by simp : Kind.mx ≠ Kind.dmarc),
          getKind_ite_update_ne _ _ _ _ _ _ (by simp : Kind.mx ≠ Kind.spf)]
      · simp [h, Args.enabled,
          getKind_ite_update_ne _ _ _ _ _ _ (by simp : Kind.mx ≠ Kind.dmarc),
          getKind_ite_update_ne _ _ _ _ _ _ (by simp : Kind.mx ≠ Kind.spf)]
  | a =>
      unfold forward_updates
      by_cases h : args.a_flag
      · simp [h, Args.enabled, getKind_updateKindTable_same, forward_lookup,
          getKind_ite_update_ne _ _ _ _ _ _ (by simp : Kind.a ≠ Kind.dmarc),
          getKind_ite_update_ne _ _ _ _ _ _ (by simp : Kind.a ≠ Kind.spf),
          getKind_ite_update_ne _ _ _ _ _ _ (by simp : Kind.a ≠ Kind.mx)]
      · simp [h, Args.enabled,
          getKind_ite_update_ne _ _ _ _ _ _ (by simp : Kind.a ≠ Kind.dmarc),
          getKind_ite_update_ne _ _ _ _ _ _ (by simp : Kind.a ≠ Kind.spf),
          getKind_ite_update_ne _ _ _ _ _ _ (by simp : Kind.a ≠ Kind.mx)]

/-! ## Claim theorems (first group) -/

/-- C2: for every query name, record type and optional filter, when the
underlying resolution fails with exception text `e`, `dns_lookup` does not
propagate the exception: it returns the one-element list `[str(e)]`. -/
theorem dns_lookup_failure_singleton (resolve : Resolve) (qname rdtype : String)
    (pattern : Option (String → Bool)) (e : String)
    (h : resolve qname rdtype = Except.error e) :
    dns_lookup resolve qname rdtype pattern = [e] := by
  unfold dns_lookup
  rw [h]

theorem dns_lookup_failure_singleton_witness :
    resolveTimeout "example.com" "MX" = Except.error "The DNS operation timed out." ∧
      dns_lookup resolveTimeout "example.com" "MX" none = ["The DNS operation timed out."] :=
  ⟨rfl, dns_lookup_failure_singleton resolveTimeout "example.com" "MX" none
    "The DNS operation timed out." rfl⟩

/-- C10: the output-path check accepts a path exactly when its lowercased
form ends in `.xlsx`; in particular `report.XLSX` passes validation. -/
theorem validate_xlsx_case_insensitive :
    (∀ p : String, validate_xlsx_file p = Except.ok p ↔
      endsWithStr (toLowerStr p) ".xlsx" = true) ∧
    validate_xlsx_file "report.XLSX" = Except.ok "report.XLSX" := by
  constructor
  · intro p
    constructor
    · intro h
      by_cases hc : endsWithStr (toLowerStr p) ".xlsx" = true
      · exact hc
      · unfold validate_xlsx_file at h
        simp [hc] at h
    · intro h
      unfold validate_xlsx_file
      simp [h]
  · have h : endsWithStr (toLowerStr "report.XLSX") ".xlsx" = true := by decide
    unfold validate_xlsx_file
    simp [h]

/-- C7: with input type `txt` and an explicit (non-empty) host field name the
run is rejected as a configuration error before the input file is read or any
DNS query issued (the result does not depend on the file's records or on the
resolver); with input type `csv` and no field name, the field defaults to
`Domain`. -/
theorem host_field_config (f : String) (hf : f ≠ "") :
    (∀ (entries : List String) (args : Args) (resolve : Resolve)
        (reverseName : ReverseName),
      runMain "txt" (some f) entries args resolve reverseName =
        Except.error "--host-ip can not be used with type 'txt'") ∧
    check_host_field "csv" none = Except.ok (some "Domain") := by
  constructor
  · intro entries args resolve reverseName
    unfold runMain check_host_field truthy
    simp [hf]
  · rfl

theorem host_field_config_witness :
    ("Host" : String) ≠ "" ∧
    runMain "txt" (some "Host") ["example.com"] argsMxOnly resolveEmpty from_address =
      Except.error "--host-ip can not be used with type 'txt'" ∧
    check_host_field "csv" none = Except.ok (some "Domain") := by
  refine ⟨by decide, ?_, (host_field_config "Host" (by decide)).2⟩
  exact (host_field_config "Host" (by decide)).1 ["example.com"] argsMxOnly
    resolveEmpty from_address

/-- C1 counterexample: with the PTR/reverse lookup enabled, the host
`"not.an.ip"` (not a valid IP address) does not yield a row with a single
diagnostic field — the reverse-name synthesis exception propagates out of
`process_domain` and aborts the run. -/
theorem reverse_nonip_counterexample :
    process_domain "not.an.ip" argsReverseOnly resolveEmpty from_address initData =
      Except.error "dns.exception.SyntaxError: could not convert not.an.ip to an address" := by
  rfl

/-- C1 amended: when the reverse-name synthesis fails for a host (as it does
for every host that is not a valid IP address) and the PTR/reverse lookup is
enabled, `process_domain` propagates that failure as an exception — the run
aborts and no row is produced for the host, unlike a DNS lookup failure,
which is recovered locally. -/
theorem reverse_nonip_aborts (host : String) (args : Args) (resolve : Resolve)
    (reverseName : ReverseName) (d : DnsData) (e : String)
    (hrev : args.reverse_flag = true) (he : reverseName host = Except.error e) :
    process_domain host args resolve reverseName d = Except.error e := by
  unfold process_domain
  simp [hrev, he]

theorem reverse_nonip_aborts_witness :
    argsReverseOnly.reverse_flag = true ∧
    from_address "not.an.ip" =
      Except.error "dns.exception.SyntaxError: could not convert not.an.ip to an address" ∧
    process_domain "not.an.ip" argsReverseOnly resolveTimeout from_address initData =
      Except.error "dns.exception.SyntaxError: could not convert not.an.ip to an address" := by
  refine ⟨rfl, rfl, ?_⟩
  exact reverse_nonip_aborts "not.an.ip" argsReverseOnly resolveTimeout from_address
    initData _ rfl rfl

/-- The record-collecting fold of `dns_lookup` is a filtered map. -/
theorem lookup_foldl (pattern : Option (String → Bool)) (l : List Rdata) :
    ∀ acc : List String,
      l.foldl
        (fun records rdata =>
          let record_text := get_record_text rdata
          if patternMatches pattern record_text then records ++ [record_text]
          else records)
        acc =
        acc ++ (l.map get_record_text).filter (patternMatches pattern) := by
  induction l with
  | nil => intro acc; simp
  | cons hd tl ih =>
      intro acc
      simp only [List.foldl_cons, List.map_cons, List.filter_cons]
      rw [ih]
      by_cases h : patternMatches pattern (get_record_text hd) <;>
        simp [h, List.append_assoc]

/-- On a successful resolution, `dns_lookup` returns the decoded records that
match the filter, in answer order. -/
theorem dns_lookup_success (resolve : Resolve) (qname rdtype : String)
    (pattern : Option (String → Bool)) (answers : List Rdata)
    (h : resolve qname rdtype = Except.ok answers) :
    dns_lookup resolve qname rdtype pattern =
      (answers.map get_record_text).filter (patternMatches pattern) := by
  unfold dns_lookup
  rw [h]
  exact lookup_foldl pattern answers []

/-- C5: with the SPF filter, decoded TXT strings that do not begin with
`v=spf` (case-insensitively) are dropped: the result is exactly the decoded
answers filtered through `spfMatch`. Moreover, on the host whose TXT records
decode to `["v=spf1 include:_spf.example.com ~all", "unrelated=1"]`, the SPF
row tail is exactly the first string and the SPF table's `max_cols` is 1. -/
theorem spf_filter_drops_nonmatching (resolve : Resolve) (qname : String)
    (answers : List Rdata) (h : resolve qname "TXT" = Except.ok answers) :
    dns_lookup resolve qname "TXT" (some spfMatch) =
      (answers.map get_record_text).filter spfMatch ∧
    process_domain "example.com" argsSpfOnly resolveSpfExample from_address initData =
      Except.ok
        ⟨none, some ⟨1, [["example.com", "v=spf1 include:_spf.example.com ~all"]]⟩,
          none, none, none⟩ := by
  constructor
  · exact dns_lookup_success resolve qname "TXT" (some spfMatch) answers h
  · rfl

theorem spf_filter_drops_nonmatching_witness :
    resolveSpfExample "example.com" "TXT" =
      Except.ok [Rdata.txt ["v=spf1 include:_spf.example.com ~all"],
        Rdata.txt ["unrelated=1"]] ∧
    dns_lookup resolveSpfExample "example.com" "TXT" (some spfMatch) =
      ([Rdata.txt ["v=spf1 include:_spf.example.com ~all"],
        Rdata.txt ["unrelated=1"]].map get_record_text).filter spfMatch := by
  refine ⟨rfl, ?_⟩
  exact (spf_filter_drops_nonmatching resolveSpfExample "example.com" _ rfl).1

/-- C6: blank-after-trim entries of the input file never reach the domain
processor: the reading loop of `main` behaves exactly like processing, in
file order, the trimmed entries that are non-empty. -/
theorem blank_entries_never_processed (entries : List String) (args : Args)
    (resolve : Resolve) (reverseName : ReverseName) (d : DnsData) :
    mainLoop entries args resolve reverseName d =
      processAll ((entries.map trimStr).filter (fun s => s ≠ "")) args resolve
        reverseName d := by
  induction entries generalizing d with
  | nil => rfl
  | cons line rest ih =>
      by_cases h : trimStr line = ""
      · simp only [mainLoop]
        rw [if_pos h, ih]
        congr 1
        simp [h]
      · simp only [mainLoop]
        rw [if_neg h]
        have hcons : ((line :: rest).map trimStr).filter (fun s => s ≠ "") =
            trimStr line :: (rest.map trimStr).filter (fun s => s ≠ "") := by
          simp [h]
        rw [hcons]
        simp only [processAll]
        cases hp : process_domain (trimStr line) args resolve reverseName d with
        | error e => simp only [hp]
        | ok d' =>
            simp only [hp]
            exact ih d'

/-! ## Table invariant lemmas -/

theorem tableInv_empty : tableInv emptyTable := by
  refine ⟨?_, ?_, rfl⟩ <;> intro row hrow <;> simp [emptyTable] at hrow

theorem tableInv_updateTable (t : Table) (host : String) (res : List String)
    (h : tableInv t) : tableInv (updateTable t host res) := by
  obtain ⟨h0, h1, h2⟩ := h
  show (∀ row ∈ t.data ++ [host :: res], row ≠ []) ∧
    (∀ row ∈ t.data ++ [host :: res], row.length - 1 ≤ max res.length t.max_cols) ∧
    max res.length t.max_cols =
      ((t.data ++ [host :: res]).map (fun row => row.length - 1)).foldl max 0
  refine ⟨?_, ?_, ?_⟩
  · intro row hrow
    rcases List.mem_append.mp hrow with hrow | hrow
    · exact h0 row hrow
    · rw [List.mem_singleton.mp hrow]
      simp
  · intro row hrow
    rcases List.mem_append.mp hrow with hrow | hrow
    · exact le_trans (h1 row hrow) (le_max_right _ _)
    · rw [List.mem_singleton.mp hrow]
      simp only [List.length_cons, Nat.add_sub_cancel]
      exact le_max_left _ _
  · have hx : ((t.data ++ [host :: res]).map (fun row => row.length - 1)).foldl max 0 =
        max ((t.data.map (fun row => row.length - 1)).foldl max 0) res.length := by
      simp [List.foldl_append]
    rw [hx, ← h2, Nat.max_comm]

theorem dataInv_updateKindTable (d : DnsData) (k : Kind) (host : String)
    (res : List String) (h : dataInv d) : dataInv (updateKindTable d k host res) := by
  intro k' t hk'
  by_cases he : k' = k
  · subst he
    rw [getKind_updateKindTable_same] at hk'
    have ht := (Option.some.injEq _ _).mp hk'
    rw [← ht]
    apply tableInv_updateTable
    cases hbase : getKind d k' with
    | none => exact tableInv_empty
    | some t0 => exact h k' t0 hbase
  · rw [getKind_updateKindTable_ne d k k' host res he] at hk'
    exact h k' t hk'

theorem dataInv_ite_update (flag : Prop) [Decidable flag] (d : DnsData) (k : Kind)
    (host : String) (res : List String) (h : dataInv d) :
    dataInv (if flag then updateKindTable d k host res else d) := by
  by_cases hf : flag
  · rw [if_pos hf]
    exact dataInv_updateKindTable d k host res h
  · rw [if_neg hf]
    exact h

theorem dataInv_forward (host : String) (args : Args) (resolve : Resolve)
    (d : DnsData) (h : dataInv d) :
    dataInv (forward_updates host args resolve d) := by
  unfold forward_updates
  exact dataInv_ite_update _ _ _ _ _
    (dataInv_ite_update _ _ _ _ _
      (dataInv_ite_update _ _ _ _ _
        (dataInv_ite_update _ _ _ _ _ h)))

theorem dataInv_process_domain (host : String) (args : Args) (resolve : Resolve)
    (reverseName : ReverseName) (d d' : DnsData) (h : dataInv d)
    (hp : process_domain host args resolve reverseName d = Except.ok d') :
    dataInv d' := by
  unfold process_domain at hp
  by_cases hr : args.reverse_flag
  · rw [if_pos hr] at hp
    cases hrev : reverseName host with
    | error e =>
        rw [hrev] at hp
        exact Except.noConfusion hp
    | ok reversed_ip =>
        rw [hrev] at hp
        have hp2 : Except.ok (updateKindTable (forward_updates host args resolve d)
            Kind.ptr host (dns_lookup resolve reversed_ip "PTR" none)) =
            (Except.ok d' : Except String DnsData) := hp
        injection hp2 with h'
        rw [← h']
        exact dataInv_updateKindTable _ _ _ _ (dataInv_forward _ _ _ _ h)
  · rw [if_neg hr] at hp
    injection hp with h'
    rw [← h']
    exact dataInv_forward _ _ _ _ h

theorem dataInv_processAll (hosts : List String) (args : Args) (resolve : Resolve)
    (reverseName : ReverseName) (d d' : DnsData) (h : dataInv d)
    (hp : processAll hosts args resolve reverseName d = Except.ok d') :
    dataInv d' := by
  induction hosts generalizing d with
  | nil =>
      simp only [processAll] at hp
      injection hp with h'
      rw [← h']
      exact h
  | cons host rest ih =>
      simp only [processAll] at hp
      cases hq : process_domain host args resolve reverseName d with
      | error e =>
          rw [hq] at hp
          exact Except.noConfusion hp
      | ok dmid =>
          rw [hq] at hp
          exact ih dmid
            (dataInv_process_domain host args resolve reverseName d dmid h hq) hp

theorem dataInv_init : dataInv initData := by
  intro k t hk
  cases k <;> simp [initData, getKind] at hk

/-! ## Claim theorems (second group) -/

/-- C3: after processing any sequence of hosts, every table of the final
state has every row's tail length (row length minus the leading host cell)
bounded by its `max_cols`, and `max_cols` equals the maximum tail length over
the table's rows. -/
theorem table_max_cols_invariant (hosts : List String) (args : Args)
    (resolve : Resolve) (reverseName : ReverseName) (d' : DnsData)
    (hp : processAll hosts args resolve reverseName initData = Except.ok d')
    (k : Kind) (t : Table) (ht : getKind d' k = some t) :
    (∀ row ∈ t.data, row.length - 1 ≤ t.max_cols) ∧
      t.max_cols = (t.data.map (fun row => row.length - 1)).foldl max 0 := by
  have hinv := dataInv_processAll hosts args resolve reverseName initData d'
    dataInv_init hp
  exact ⟨(hinv k t ht).2.1, (hinv k t ht).2.2⟩

theorem table_max_cols_invariant_witness :
    (∀ row ∈ ([["example.com", "mail.example.com"]] : List (List String)),
      row.length - 1 ≤ 1) ∧
    (1 : Nat) = (([["example.com", "mail.example.com"]] : List (List String)).map
      (fun row => row.length - 1)).foldl max 0 :=
  table_max_cols_invariant ["example.com"] argsMxOnly resolveMxExample from_address
    ⟨none, none, some ⟨1, [["example.com", "mail.example.com"]]⟩, none, none⟩ rfl
    Kind.mx ⟨1, [["example.com", "mail.example.com"]]⟩ rfl

/-- C4: every row of every table produced by processing is a host followed by
a tail; the compact layout's single value cell for the row is exactly the
newline-join of the tail values the expanded layout writes, and both layouts
put the same host string in column 0. -/
theorem compact_matches_expanded (hosts : List String) (args : Args)
    (resolve : Resolve) (reverseName : ReverseName) (d' : DnsData)
    (hp : processAll hosts args resolve reverseName initData = Except.ok d')
    (k : Kind) (t : Table) (ht : getKind d' k = some t)
    (row : List String) (hrow : row ∈ t.data) :
    ∃ host tail, row = host :: tail ∧
      compactRowCells row = some (host, interString "\n" tail) ∧
      expandedRowCells row = host :: tail := by
  have hinv := dataInv_processAll hosts args resolve reverseName initData d'
    dataInv_init hp
  have hne : row ≠ [] := (hinv k t ht).1 row hrow
  obtain ⟨host, tail, htl⟩ := List.exists_cons_of_ne_nil hne
  subst htl
  exact ⟨host, tail, rfl, rfl, rfl⟩

theorem compact_matches_expanded_witness :
    ∃ host tail, (["example.com", "mail.example.com"] : List String) = host :: tail ∧
      compactRowCells ["example.com", "mail.example.com"] =
        some (host, interString "\n" tail) ∧
      expandedRowCells ["example.com", "mail.example.com"] = host :: tail :=
  compact_matches_expanded ["example.com"] argsMxOnly resolveMxExample from_address
    ⟨none, none, some ⟨1, [["example.com", "mail.example.com"]]⟩, none, none⟩ rfl
    Kind.mx ⟨1, [["example.com", "mail.example.com"]]⟩ rfl
    ["example.com", "mail.example.com"] (by simp)

/-- C9: when `process_domain` returns normally, each enabled kind's table has
gained exactly one row `[host] + result` (also when the result is the empty
list, e.g. an SPF lookup whose every TXT answer fails the filter), and each
disabled kind's table is untouched. -/
theorem one_row_per_enabled_kind (host : String) (args : Args) (resolve : Resolve)
    (reverseName : ReverseName) (d d' : DnsData)
    (hp : process_domain host args resolve reverseName d = Except.ok d') (k : Kind) :
    (args.enabled k = true →
      ∃ res, getKind d' k =
        some ⟨max res.length ((getKind d k).getD emptyTable).max_cols,
          ((getKind d k).getD emptyTable).data ++ [host :: res]⟩) ∧
    (args.enabled k = false → getKind d' k = getKind d k) := by
  unfold process_domain at hp
  by_cases hr : args.reverse_flag
  · rw [if_pos hr] at hp
    cases hrev : reverseName host with
    | error e =>
        rw [hrev] at hp
        exact Except.noConfusion hp
    | ok reversed_ip =>
        rw [hrev] at hp
        have hp2 : Except.ok (updateKindTable (forward_updates host args resolve d)
            Kind.ptr host (dns_lookup resolve reversed_ip "PTR" none)) =
            (Except.ok d' : Except String DnsData) := hp
        injection hp2 with h'
        rw [← h']
        by_cases hk : k = Kind.ptr
        · subst hk
          constructor
          · intro _
            refine ⟨dns_lookup resolve reversed_ip "PTR" none, ?_⟩
            rw [getKind_updateKindTable_same, getKind_forward_ptr]
            rfl
          · intro hen
            rw [Args.enabled] at hen
            rw [hr] at hen
            exact Bool.noConfusion hen
        · constructor
          · intro hen
            refine ⟨forward_lookup host resolve k, ?_⟩
            rw [getKind_updateKindTable_ne _ _ _ _ _ hk,
              getKind_forward host args resolve d k hk, if_pos hen]
            rfl
          · intro hen
            rw [getKind_updateKindTable_ne _ _ _ _ _ hk,
              getKind_forward host args resolve d k hk, if_neg]
            rw [hen]
            exact Bool.false_ne_true
  · rw [if_neg hr] at hp
    injection hp with h'
    rw [← h']
    by_cases hk : k = Kind.ptr
    · subst hk
      constructor
      · intro hen
        exact absurd hen hr
      · intro _
        exact getKind_forward_ptr host args resolve d
    · constructor
      · intro hen
        refine ⟨forward_lookup host resolve k, ?_⟩
        rw [getKind_forward host args resolve d k hk, if_pos hen]
        rfl
      · intro hen
        rw [getKind_forward host args resolve d k hk, if_neg]
        rw [hen]
        exact Bool.false_ne_true

theorem one_row_per_enabled_kind_witness :
    argsSpfOnly.enabled Kind.spf = true ∧
    ∃ res : List String,
      getKind (⟨none, some ⟨0, [["example.com"]]⟩, none, none, none⟩ : DnsData)
          Kind.spf =
        some ⟨max res.length ((getKind initData Kind.spf).getD emptyTable).max_cols,
          ((getKind initData Kind.spf).getD emptyTable).data ++ ["example.com" :: res]⟩ :=
  ⟨rfl,
    (one_row_per_enabled_kind "example.com" argsSpfOnly resolveUnrelated from_address
      initData ⟨none, some ⟨0, [["example.com"]]⟩, none, none, none⟩ rfl Kind.spf).1
      rfl⟩

/-! ## C8: record decoding refinement -/

theorem dropWhile_eq_self_of_head (l : List Char) (h : l.head? ≠ some '.') :
    l.dropWhile (fun c => c = '.') = l := by
  cases l with
  | nil => rfl
  | cons c cs =>
      have hc : ¬(c = '.') := by
        intro hc
        exact h (by simp [hc])
      simp [List.dropWhile_cons, hc]

/-- On well-formed name renderings, Python's two-sided `strip('.')` agrees
with the spec's "strip the trailing root-label dot, otherwise unchanged". -/
theorem stripDotsBoth_eq_stripTrailing (s : String) (h : wfNameText s = true) :
    stripDotsBoth s = stripTrailingRootDot s := by
  obtain ⟨sd⟩ := s
  unfold wfNameText at h
  rw [Bool.and_eq_true] at h
  obtain ⟨h1, h2⟩ := h
  have h1' : sd.head? ≠ some '.' := of_decide_eq_true h1
  unfold stripDotsBoth stripTrailingRootDot
  rw [dropWhile_eq_self_of_head sd h1']
  cases hr : sd.reverse with
  | nil =>
      have hd : sd = [] := List.reverse_eq_nil_iff.mp hr
      subst hd
      rfl
  | cons c rest =>
      by_cases hc : c = '.'
      · subst hc
        cases rest with
        | nil =>
            exfalso
            have hsd : sd = ['.'] := by
              have := congrArg List.reverse hr
              simpa using this
            subst hsd
            exact h1' rfl
        | cons c2 rest2 =>
            have hc2 : ¬(c2 = '.') := by
              rw [hr] at h2
              simpa using h2
            simp [List.dropWhile_cons, hc2]
      · have hsd : (c :: rest).reverse = sd := by
          rw [← hr, List.reverse_reverse]
        simp [List.dropWhile_cons, hc, hsd]

/-- C8: for every well-formed returned record, the decoded text is:
A/CNAME/PTR the textual name with the trailing root-label dot stripped and
otherwise unchanged; TXT the concatenation of the decoded character-string
chunks; MX the exchange name with trailing dot stripped; any other type the
generic textual form with trailing dot stripped. -/
theorem record_text_decodes (r : Rdata) (h : rdataWF r = true) :
    get_record_text r = spec_record_text r := by
  cases r with
  | txt strings => rfl
  | a text => exact stripDotsBoth_eq_stripTrailing text h
  | cname text => exact stripDotsBoth_eq_stripTrailing text h
  | ptr text => exact stripDotsBoth_eq_stripTrailing text h
  | mx exchange => exact stripDotsBoth_eq_stripTrailing exchange h
  | other text => exact stripDotsBoth_eq_stripTrailing text h

theorem record_text_decodes_witness :
    rdataWF (Rdata.mx "mail.example.com.") = true ∧
      get_record_text (Rdata.mx "mail.example.com.") =
        spec_record_text (Rdata.mx "mail.example.com.") :=
  ⟨rfl, record_text_decodes (Rdata.mx "mail.example.com.") rfl⟩

end DnsCheck
